import Mathlib

/-!
Verification of the Portkey CA agent-skills transaction-signing and
cross-chain-transfer core, as a shallow embedding in Lean 4.

Embedded source files:
* `src/core/transfer.ts` — `crossChainTransfer`, `chainIdToNum`
* `src/core/contract.ts` — `managerForwardCall`
* `src/core/keystore.ts` — keystore lifecycle (save / unlock / lock / status)
* `lib/aelf-client.ts` — `getTxResult` polling, `encodeManagerForwardCallParams`
  method-lookup
* `lib/types.ts` — `getApprovalCount`, the `ChainId` union

External aelf-sdk facilities (base58 chain-id conversion, keystore
encryption, key-to-address derivation) are modelled from their documented
contracts; network effects are modelled as explicit oracle arguments, and
the calls a function issues are returned as an explicit trace.
-/

namespace PortkeyCA

/-! ## Base58 chain-identifier conversion

`chainIdToNum` in `src/core/transfer.ts` delegates to aelf-sdk's
`chainIdConvertor.base58ToChainId`, documented in the source comment as:
base58-decode the string to 3 bytes, pad to 4 bytes, read as a
little-endian int32.  The reverse direction (`chainIdToBase58`: write the
int32 little-endian, keep the first 3 bytes, base58-encode) is the sdk's
inverse routine used to state the round-trip property. -/

/-- The standard base58 alphabet used by aelf's chain-id conversion. -/
def base58Alphabet : List Char :=
  "123456789ABCDEFGHJKLMNPQRSTUVWXYZabcdefghijkmnopqrstuvwxyz".data

/-- Base58 digit value of a character, `none` for a non-alphabet character. -/
def b58DigitVal (c : Char) : Option Nat :=
  base58Alphabet.indexOf? c

/-- Value of a base58 string read as a big-endian base-58 number. -/
def b58DecodeVal (cs : List Char) : Option Nat :=
  cs.foldlM (fun acc c => (b58DigitVal c).map (fun i => acc * 58 + i)) 0

/-- Big-endian byte expansion of a natural number (empty for `0`),
fuel-driven so that it evaluates inside the kernel. -/
def natToBytesBEAux : Nat → Nat → List Nat
  | 0, _ => []
  | fuel + 1, n =>
    if n = 0 then [] else natToBytesBEAux fuel (n / 256) ++ [n % 256]

/-- Big-endian byte expansion of a natural number (empty for `0`). -/
def natToBytesBE (n : Nat) : List Nat :=
  natToBytesBEAux (n + 1) n

/-- Base58-decode a string to its byte array: one leading zero byte per
leading `'1'`, then the big-endian bytes of the digit value. -/
def b58DecodeBytes (cs : List Char) : Option (List Nat) :=
  (b58DecodeVal cs).map
    (fun v => List.replicate (cs.takeWhile (· = '1')).length 0 ++ natToBytesBE v)

/-- aelf-sdk `chainIdConvertor.base58ToChainId`: base58-decode, pad the
byte buffer to 4 bytes with zeros, read a little-endian int32. -/
def base58ToChainId (s : String) : Option Int :=
  (b58DecodeBytes s.data).map (fun bytes =>
    let buf := (bytes ++ List.replicate 4 0).take 4
    let u : Nat := buf.getD 0 0 + buf.getD 1 0 * 256 + buf.getD 2 0 * 65536 +
      buf.getD 3 0 * 16777216
    if u < 2147483648 then (u : Int) else (u : Int) - 4294967296)

/-- `chainIdToNum` (`src/core/transfer.ts`): delegate to the sdk's
`base58ToChainId`. -/
def chainIdToNum (chainId : String) : Option Int :=
  base58ToChainId chainId

/-- Base58 digits (most significant first) of a natural number. -/
def natToB58DigitsAux : Nat → Nat → List Nat
  | 0, _ => []
  | fuel + 1, n =>
    if n = 0 then [] else natToB58DigitsAux fuel (n / 58) ++ [n % 58]

/-- Base58-encode a byte array: one `'1'` per leading zero byte, then the
base58 digits of the big-endian value. -/
def b58EncodeBytes (bytes : List Nat) : List Char :=
  let v := bytes.foldl (fun a b => a * 256 + b) 0
  List.replicate (bytes.takeWhile (· = 0)).length '1' ++
    (natToB58DigitsAux (v + 1) v).map (fun d => base58Alphabet.getD d '1')

/-- aelf-sdk `chainIdConvertor.chainIdToBase58`: write the int32
little-endian, keep the first 3 bytes, base58-encode them. -/
def chainIdToBase58 (n : Int) : String :=
  let u := (n % 4294967296).toNat
  ⟨b58EncodeBytes [u % 256, u / 256 % 256, u / 65536 % 256]⟩

/-- The canonical chain identifiers in use, from the `ChainId` union in
`lib/types.ts`: `'AELF' | 'tDVV' | 'tDVW'`. -/
def canonicalChainIds : List String := ["AELF", "tDVV", "tDVW"]

/-! ## Guardian approval count (`getApprovalCount`, `lib/types.ts`) -/

/-- `getApprovalCount`: for `guardianCount <= 3` all guardians are
required; above that, `Math.floor(count * 3 / 5) + 1`. -/
def getApprovalCount (guardianCount : Nat) : Nat :=
  if guardianCount ≤ 3 then guardianCount
  else guardianCount * 3 / 5 + 1

/-! ## Strings and JS-style helpers -/

/-- JS truthiness fallback `a || b` for an optional string `a`:
`undefined` and the empty string fall back to the default. -/
def jsOrElse (o : Option String) (dflt : String) : String :=
  match o with
  | some s => if s = "" then dflt else s
  | none => dflt

/-- JS `String.prototype.includes`. -/
def jsIncludes (s sub : String) : Bool :=
  decide (sub.data <:+: s.data)

/-- Substring containment, the property asserted of error messages. -/
def strContains (s sub : String) : Prop :=
  sub.data <:+: s.data

/-! ## Transaction result polling (`getTxResult`, `lib/aelf-client.ts`)

Each poll of the chain is an oracle value: `Except.ok` is a result object
returned by `instance.chain.getTxResult`, `Except.error` a message thrown
by it.  The loop returns the outcome together with the trace of poll
outcomes it actually consumed. -/

/-- The fields of a polled transaction result that `getTxResult` reads. -/
structure TxResultData where
  Status : String
  Error : Option String
deriving DecidableEq

/-- `TX_RESULT_MAX_RETRIES` (`lib/aelf-client.ts`). -/
def TX_RESULT_MAX_RETRIES : Nat := 20

/-- The message of the error thrown on a `FAILED` poll:
`Transaction ${txId} FAILED: ${result.Error || 'Unknown error'}`. -/
def failedMsg (txId : String) (r : TxResultData) : String :=
  "Transaction " ++ (txId ++ (" FAILED: " ++ jsOrElse r.Error "Unknown error"))

/-- The message thrown after exhausting all attempts:
`Transaction ${txId} not confirmed after ${maxRetries} retries`. -/
def notConfirmedMsg (txId : String) (maxRetries : Nat) : String :=
  "Transaction " ++ (txId ++ (" not confirmed after " ++
    (toString maxRetries ++ " retries")))

/-- The polling loop body of `getTxResult`: on a terminal status return or
throw, on a `FAILED`-mentioning thrown message re-throw, otherwise retry
with the next poll.  `none` means the attempts were exhausted. -/
def getTxResultGo (txId : String) (polls : Nat → Except String TxResultData) :
    Nat → Option (Except String TxResultData) × List (Except String TxResultData)
  | 0 => (none, [])
  | fuel + 1 =>
    match polls 0 with
    | Except.ok r =>
      if r.Status = "MINED" ∨ r.Status = "FAILED" then
        if r.Status = "FAILED" then
          -- thrown inside the `try`; the `catch` re-throws messages
          -- containing "FAILED" and retries otherwise
          if jsIncludes (failedMsg txId r) "FAILED" then
            (some (Except.error (failedMsg txId r)), [Except.ok r])
          else
            let rest := getTxResultGo txId (fun k => polls (k + 1)) fuel
            (rest.1, Except.ok r :: rest.2)
        else (some (Except.ok r), [Except.ok r])
      else
        let rest := getTxResultGo txId (fun k => polls (k + 1)) fuel
        (rest.1, Except.ok r :: rest.2)
    | Except.error m =>
      if jsIncludes m "FAILED" then (some (Except.error m), [Except.error m])
      else
        let rest := getTxResultGo txId (fun k => polls (k + 1)) fuel
        (rest.1, Except.error m :: rest.2)

/-- `getTxResult` (`lib/aelf-client.ts`): run the polling loop for
`maxRetries` attempts; if no attempt settles it, throw the not-confirmed
error. -/
def getTxResult (txId : String) (polls : Nat → Except String TxResultData)
    (maxRetries : Nat) :
    Except String TxResultData × List (Except String TxResultData) :=
  match getTxResultGo txId polls maxRetries with
  | (some res, tr) => (res, tr)
  | (none, tr) => (Except.error (notConfirmedMsg txId maxRetries), tr)

/-! ## Forward-call dispatcher and transfer orchestrator

`managerForwardCall` (`src/core/contract.ts`) and `crossChainTransfer`
(`src/core/transfer.ts`).  Network effects are oracle arguments
(`Except.ok` = the awaited value, `Except.error` = a thrown message); each
function also returns the trace of network calls it issued, so that
"step 2 is never attempted" is a statement about the trace. -/

/-- The wallet fields this core reads. -/
structure AElfWallet where
  address : String
  privateKey : String
deriving DecidableEq

/-- The chain-descriptor fields this core reads. -/
structure ChainInfo where
  endPoint : String
  caContractAddress : String
deriving DecidableEq

/-- Result of `callSendMethod`: `{ transactionId, data }`. -/
structure SendResult where
  transactionId : String
  data : TxResultData
deriving DecidableEq

/-- The `TransferResult` shape of `lib/types.ts`. -/
structure TransferResult where
  transactionId : String
  status : String
deriving DecidableEq

/-- Arguments of a send call, as constructed by the transfer core. -/
inductive SendArgs
  | forward (caHash contractAddress methodName : String) (encodedArgs : List Nat)
  | transfer (symbol «to» amount memo : String)
  | crossChain («to» symbol amount memo : String) (toChainId issueChainId : Int)
deriving DecidableEq

/-- One network call issued by the core. -/
inductive NetCall
  | getChainInfo (chainId : String)
  | descriptorFetch (contractAddress : String)
  | send (endpoint contractAddress signer methodName : String) (args : SendArgs)
deriving DecidableEq

/-- Whether a network call is a send call of the given contract method. -/
def sendsMethod (c : NetCall) (m : String) : Bool :=
  match c with
  | NetCall.send _ _ _ mn _ => mn == m
  | _ => false

/-- `ManagerForwardCallParams` (`lib/types.ts`): the forward-call
envelope plus the chain it runs on; `args` is the plain argument object. -/
structure ManagerForwardCallParams where
  caHash : String
  contractAddress : String
  methodName : String
  args : List (String × String)
  chainId : String
deriving DecidableEq

/-- `managerForwardCall` (`src/core/contract.ts`): validate the envelope,
resolve the chain, protobuf-encode the target method's args, then send
`ManagerForwardCall` to the CA contract signed by the manager wallet. -/
def managerForwardCall (wallet : AElfWallet) (params : ManagerForwardCallParams)
    (chainInfoRes : Except String ChainInfo)
    (encodeRes : Except String (List Nat))
    (sendRes : Except String SendResult) :
    Except String SendResult × List NetCall :=
  if params.caHash = "" then (Except.error "caHash is required", [])
  else if params.contractAddress = "" then
    (Except.error "contractAddress is required", [])
  else if params.methodName = "" then (Except.error "methodName is required", [])
  else if params.chainId = "" then (Except.error "chainId is required", [])
  else
    match chainInfoRes with
    | Except.error e => (Except.error e, [NetCall.getChainInfo params.chainId])
    | Except.ok chainInfo =>
      match encodeRes with
      | Except.error e =>
        (Except.error e, [NetCall.getChainInfo params.chainId,
          NetCall.descriptorFetch params.contractAddress])
      | Except.ok encodedArgs =>
        (sendRes, [NetCall.getChainInfo params.chainId,
          NetCall.descriptorFetch params.contractAddress,
          NetCall.send chainInfo.endPoint chainInfo.caContractAddress wallet.address
            "ManagerForwardCall"
            (SendArgs.forward params.caHash params.contractAddress params.methodName
              encodedArgs)])

/-- `CrossChainTransferParams` (`lib/types.ts`). -/
structure CrossChainTransferParams where
  caHash : String
  tokenContractAddress : String
  symbol : String
  «to» : String
  amount : String
  memo : Option String
  chainId : String
  toChainId : String
  issueChainId : Option Int
deriving DecidableEq

/-- `params.issueChainId || chainIdToNum(params.chainId)`: a truthy
(non-zero) explicit issue chain wins, otherwise the source chain id is
converted. -/
def resolveIssueChainId (p : CrossChainTransferParams) : Option Int :=
  match p.issueChainId with
  | some ic => if ic ≠ 0 then some ic else chainIdToNum p.chainId
  | none => chainIdToNum p.chainId

/-- Modelled from the spec: the message thrown by the external sdk's
base58 decoder on a malformed chain identifier (the sdk contract is
assumed, not reimplemented; no claim depends on this text). -/
def invalidB58Msg (s : String) : String :=
  "Non-base58 character: " ++ s

/-- The step-1 failure message of `crossChainTransfer`:
`Cross-chain step 1 failed (transfer to manager): ${data.Error || data.Status}`. -/
def step1FailedMsg (r : SendResult) : String :=
  "Cross-chain " ++ "step 1" ++ " failed (transfer to manager): " ++
    jsOrElse r.data.Error r.data.Status

/-- The step-2 recovery message of `crossChainTransfer`, chunked exactly
as the source template concatenates it. -/
def recoveryMsg (wallet : AElfWallet) (p : CrossChainTransferParams)
    (step2ErrMsg step1TxId : String) : String :=
  "Cross-chain step 2 failed: " ++ step2ErrMsg ++ "\n\n" ++ "⚠ " ++
    "RECOVERY NEEDED" ++ ": " ++ p.amount ++ " " ++ p.symbol ++
    " is now on Manager address (" ++ wallet.address ++
    "), not the CA wallet. Use the \"recoverStuckTransfer\" tool to transfer tokens back to the CA, or retry the cross-chain transfer manually.\nRecovery params: \x7b managerAddress: \"" ++
    wallet.address ++ "\", tokenContractAddress: \"" ++ p.tokenContractAddress ++
    "\", symbol: \"" ++ p.symbol ++ "\", amount: \"" ++ p.amount ++
    "\", chainId: \"" ++ p.chainId ++ "\", caHash: \"" ++ p.caHash ++
    "\", step1TxId: \"" ++ step1TxId ++ "\" \x7d"

/-- `crossChainTransfer` (`src/core/transfer.ts`): validate, resolve the
chain, forward-call `Transfer` moving the funds to the manager address
(Step 1), require `MINED`, then direct-send `CrossChainTransfer` from the
manager (Step 2); a Step 2 throw is caught and re-raised as the recovery
message. -/
def crossChainTransfer (wallet : AElfWallet) (params : CrossChainTransferParams)
    (chainInfoRes : Except String ChainInfo)
    (encodeRes : Except String (List Nat))
    (step1Send step2Send : Except String SendResult) :
    Except String TransferResult × List NetCall :=
  if params.caHash = "" then (Except.error "caHash is required", [])
  else if params.tokenContractAddress = "" then
    (Except.error "tokenContractAddress is required", [])
  else if params.symbol = "" then (Except.error "symbol is required", [])
  else if params.«to» = "" then (Except.error "to address is required", [])
  else if params.amount = "" then (Except.error "amount is required", [])
  else if params.chainId = "" then (Except.error "source chainId is required", [])
  else if params.toChainId = "" then (Except.error "toChainId is required", [])
  else
    match chainInfoRes with
    | Except.error e => (Except.error e, [NetCall.getChainInfo params.chainId])
    | Except.ok chainInfo =>
      let step1 := managerForwardCall wallet
        ⟨params.caHash, params.tokenContractAddress, "Transfer",
          [("symbol", params.symbol), ("to", wallet.address),
            ("amount", params.amount), ("memo", jsOrElse params.memo "")],
          params.chainId⟩ chainInfoRes encodeRes step1Send
      let calls := NetCall.getChainInfo params.chainId :: step1.2
      match step1.1 with
      | Except.error e => (Except.error e, calls)
      | Except.ok step1Result =>
        if step1Result.data.Status ≠ "MINED" then
          (Except.error (step1FailedMsg step1Result), calls)
        else
          match chainIdToNum params.toChainId with
          | none =>
            (Except.error (recoveryMsg wallet params (invalidB58Msg params.toChainId)
              step1Result.transactionId), calls)
          | some toNum =>
            match resolveIssueChainId params with
            | none =>
              (Except.error (recoveryMsg wallet params (invalidB58Msg params.chainId)
                step1Result.transactionId), calls)
            | some issueNum =>
              let call2 := NetCall.send chainInfo.endPoint params.tokenContractAddress
                wallet.address "CrossChainTransfer"
                (SendArgs.crossChain params.«to» params.symbol params.amount
                  (jsOrElse params.memo "") toNum issueNum)
              match step2Send with
              | Except.ok r =>
                (Except.ok ⟨r.transactionId, r.data.Status⟩, calls ++ [call2])
              | Except.error m =>
                (Except.error (recoveryMsg wallet params m step1Result.transactionId),
                  calls ++ [call2])

end PortkeyCA

namespace PortkeyCA

set_option maxRecDepth 100000 in
/-- C3: the chain-identifier numeric conversion is deterministic and, on
every canonical chain identifier in use, yields the documented value and
round-trips back to the original identifier. -/
theorem chainIdToNum_roundtrip :
    (∀ s : String, chainIdToNum s = chainIdToNum s) ∧
    chainIdToNum "AELF" = some 9992731 ∧
    chainIdToNum "tDVV" = some 1866392 ∧
    chainIdToNum "tDVW" = some 1931928 ∧
    ∀ id ∈ canonicalChainIds, ∃ n : Int,
      chainIdToNum id = some n ∧ chainIdToBase58 n = id := by
  refine ⟨fun _ => rfl, by decide, by decide, by decide, ?_⟩
  intro id hid
  fin_cases hid
  · exact ⟨9992731, by decide, by decide⟩
  · exact ⟨1866392, by decide, by decide⟩
  · exact ⟨1931928, by decide, by decide⟩

set_option maxRecDepth 100000 in
/-- Witness for C3 at the concrete identifier `AELF`. -/
theorem chainIdToNum_roundtrip_witness :
    ∃ n : Int, chainIdToNum "AELF" = some n ∧ chainIdToBase58 n = "AELF" :=
  chainIdToNum_roundtrip.2.2.2.2 "AELF" (by decide)

/-- C9: the required-approval function returns the count itself for counts
at most 3 and `floor(count*3/5)+1` above 3, with the documented values at
3, 4, 5, 6, 7, 10. -/
theorem getApprovalCount_spec (n : Nat) :
    (n ≤ 3 → getApprovalCount n = n) ∧
    (3 < n → getApprovalCount n = n * 3 / 5 + 1) ∧
    getApprovalCount 3 = 3 ∧ getApprovalCount 4 = 3 ∧
    getApprovalCount 5 = 4 ∧ getApprovalCount 6 = 4 ∧
    getApprovalCount 7 = 5 ∧ getApprovalCount 10 = 7 := by
  refine ⟨fun h => ?_, fun h => ?_, by decide, by decide, by decide,
    by decide, by decide, by decide⟩
  · simp [getApprovalCount, h]
  · simp [getApprovalCount, Nat.not_le.mpr h]

/-- Witness for C9 at the concrete count 10. -/
theorem getApprovalCount_spec_witness :
    getApprovalCount 10 = 10 * 3 / 5 + 1 :=
  (getApprovalCount_spec 10).2.1 (by decide)

/-- The FAILED-poll error message contains the literal `FAILED` and the
on-chain error detail. -/
lemma strContains_failedMsg (txId : String) (r : TxResultData) :
    strContains (failedMsg txId r) "FAILED" ∧
    strContains (failedMsg txId r) (jsOrElse r.Error "Unknown error") := by
  constructor
  · show "FAILED".data <:+: (failedMsg txId r).data
    have h1 : "FAILED".data <:+: " FAILED: ".data := by decide
    have h2 : " FAILED: ".data <:+: (failedMsg txId r).data := by
      have h := List.infix_append ("Transaction ".data ++ txId.data)
        (" FAILED: ").data (jsOrElse r.Error "Unknown error").data
      simpa [failedMsg, String.data_append, List.append_assoc] using h
    exact h1.trans h2
  · show (jsOrElse r.Error "Unknown error").data <:+: (failedMsg txId r).data
    have h := List.infix_append ("Transaction ".data ++ txId.data ++ " FAILED: ".data)
      (jsOrElse r.Error "Unknown error").data ([] : List Char)
    simpa [failedMsg, String.data_append, List.append_assoc] using h

/-- The FAILED error and the not-confirmed error are distinct for every
transaction id, error detail and retry count. -/
lemma failedMsg_ne_notConfirmedMsg (txId : String) (r : TxResultData) (n : Nat) :
    failedMsg txId r ≠ notConfirmedMsg txId n := by
  intro h
  have h' : (failedMsg txId r).data = (notConfirmedMsg txId n).data := by rw [h]
  simp only [failedMsg, notConfirmedMsg, String.data_append] at h'
  have h2 := List.append_cancel_left h'
  have h3 := List.append_cancel_left h2
  simp [List.cons_append] at h3

/-- Trichotomy of a `getTxResultGo` run whose polls all return a result
object: either no terminal status was observed and the outcome is still
open, or the run ends at a first `FAILED` (throwing its message), or at a
first `MINED` (returning its result). -/
lemma getTxResultGo_cases (txId : String) :
    ∀ (fuel : Nat) (polls : Nat → TxResultData),
      ((getTxResultGo txId (fun i => Except.ok (polls i)) fuel).1 = none ∧
        ∀ r : TxResultData,
          Except.ok r ∈ (getTxResultGo txId (fun i => Except.ok (polls i)) fuel).2 →
          r.Status ≠ "FAILED" ∧ r.Status ≠ "MINED") ∨
      (∃ r : TxResultData,
        Except.ok r ∈ (getTxResultGo txId (fun i => Except.ok (polls i)) fuel).2 ∧
        r.Status = "FAILED" ∧
        (getTxResultGo txId (fun i => Except.ok (polls i)) fuel).1 =
          some (Except.error (failedMsg txId r)) ∧
        ∀ r' : TxResultData,
          Except.ok r' ∈ (getTxResultGo txId (fun i => Except.ok (polls i)) fuel).2 →
          r'.Status ≠ "MINED") ∨
      (∃ r : TxResultData,
        Except.ok r ∈ (getTxResultGo txId (fun i => Except.ok (polls i)) fuel).2 ∧
        r.Status = "MINED" ∧
        (getTxResultGo txId (fun i => Except.ok (polls i)) fuel).1 =
          some (Except.ok r) ∧
        ∀ r' : TxResultData,
          Except.ok r' ∈ (getTxResultGo txId (fun i => Except.ok (polls i)) fuel).2 →
          r'.Status ≠ "FAILED") := by
  intro fuel
  induction fuel with
  | zero =>
    intro polls
    left
    exact ⟨rfl, by intro r hr; simp [getTxResultGo] at hr⟩
  | succ fuel ih =>
    intro polls
    by_cases hM : (polls 0).Status = "MINED"
    · right; right
      have hstep : getTxResultGo txId (fun i => Except.ok (polls i)) (fuel + 1) =
          (some (Except.ok (polls 0)), [Except.ok (polls 0)]) := by
        simp [getTxResultGo, hM]
      refine ⟨polls 0, ?_, hM, ?_, ?_⟩
      · rw [hstep]; simp
      · rw [hstep]
      · intro r' hr'
        rw [hstep] at hr'
        simp at hr'
        rw [hr', hM]
        decide
    · by_cases hF : (polls 0).Status = "FAILED"
      · right; left
        have hinc : jsIncludes (failedMsg txId (polls 0)) "FAILED" = true := by
          simp only [jsIncludes, decide_eq_true_eq]
          exact (strContains_failedMsg txId (polls 0)).1
        have hstep : getTxResultGo txId (fun i => Except.ok (polls i)) (fuel + 1) =
            (some (Except.error (failedMsg txId (polls 0))), [Except.ok (polls 0)]) := by
          simp [getTxResultGo, hM, hF, hinc]
        refine ⟨polls 0, ?_, hF, ?_, ?_⟩
        · rw [hstep]; simp
        · rw [hstep]
        · intro r' hr'
          rw [hstep] at hr'
          simp at hr'
          rw [hr', hF]
          decide
      · have hstep : getTxResultGo txId (fun i => Except.ok (polls i)) (fuel + 1) =
            ((getTxResultGo txId (fun i => Except.ok (polls (i + 1))) fuel).1,
              Except.ok (polls 0) ::
                (getTxResultGo txId (fun i => Except.ok (polls (i + 1))) fuel).2) := by
          simp [getTxResultGo, hM, hF]
        rcases ih (fun i => polls (i + 1)) with
          ⟨h1, h2⟩ | ⟨r, hmem, hr, hres, hno⟩ | ⟨r, hmem, hr, hres, hno⟩
        · left
          constructor
          · rw [hstep]; exact h1
          · intro r hr
            rw [hstep] at hr
            rcases List.mem_cons.mp hr with heq | htail
            · have : r = polls 0 := by
                have := heq
                simpa [Except.ok.injEq] using this
              rw [this]; exact ⟨hF, hM⟩
            · exact h2 r htail
        · right; left
          refine ⟨r, ?_, hr, ?_, ?_⟩
          · rw [hstep]; exact List.mem_cons_of_mem _ hmem
          · rw [hstep]; exact hres
          · intro r' hr'
            rw [hstep] at hr'
            rcases List.mem_cons.mp hr' with heq | htail
            · have : r' = polls 0 := by simpa [Except.ok.injEq] using heq
              rw [this]; exact hM
            · exact hno r' htail
        · right; right
          refine ⟨r, ?_, hr, ?_, ?_⟩
          · rw [hstep]; exact List.mem_cons_of_mem _ hmem
          · rw [hstep]; exact hres
          · intro r' hr'
            rw [hstep] at hr'
            rcases List.mem_cons.mp hr' with heq | htail
            · have : r' = polls 0 := by simpa [Except.ok.injEq] using heq
              rw [this]; exact hF
            · exact hno r' htail

/-- `getTxResult` in terms of its loop. -/
lemma getTxResult_eq (txId : String) (polls : Nat → Except String TxResultData)
    (n : Nat) :
    getTxResult txId polls n =
      match (getTxResultGo txId polls n).1 with
      | some res => (res, (getTxResultGo txId polls n).2)
      | none => (Except.error (notConfirmedMsg txId n), (getTxResultGo txId polls n).2) := by
  rcases hgo : getTxResultGo txId polls n with ⟨o, tr⟩
  cases o <;> simp [getTxResult, hgo]

/-- C8: over any run of `getTxResult` whose polls all return result
objects, the call throws the FAILED error (which carries the literal
`FAILED` and the on-chain error detail) exactly when a performed poll
observed status `FAILED`; it returns the result exactly when a performed
poll observed status `MINED`; if no performed poll observed a terminal
status it throws the not-confirmed error; and the not-confirmed error is
distinct from every FAILED error. -/
theorem getTxResult_spec (txId : String) (polls : Nat → TxResultData) (n : Nat) :
    ((∃ r : TxResultData,
        Except.ok r ∈ (getTxResult txId (fun i => Except.ok (polls i)) n).2 ∧
        r.Status = "FAILED") ↔
      (∃ r : TxResultData, r.Status = "FAILED" ∧
        (getTxResult txId (fun i => Except.ok (polls i)) n).1 =
          Except.error (failedMsg txId r) ∧
        strContains (failedMsg txId r) "FAILED" ∧
        strContains (failedMsg txId r) (jsOrElse r.Error "Unknown error"))) ∧
    ((∃ r : TxResultData,
        Except.ok r ∈ (getTxResult txId (fun i => Except.ok (polls i)) n).2 ∧
        r.Status = "MINED") ↔
      (∃ r : TxResultData,
        (getTxResult txId (fun i => Except.ok (polls i)) n).1 = Except.ok r ∧
        r.Status = "MINED")) ∧
    ((∀ r : TxResultData,
        Except.ok r ∈ (getTxResult txId (fun i => Except.ok (polls i)) n).2 →
        r.Status ≠ "FAILED" ∧ r.Status ≠ "MINED") →
      (getTxResult txId (fun i => Except.ok (polls i)) n).1 =
        Except.error (notConfirmedMsg txId n)) ∧
    (∀ r : TxResultData, failedMsg txId r ≠ notConfirmedMsg txId n) := by
  have heq := getTxResult_eq txId (fun i => Except.ok (polls i)) n
  rcases getTxResultGo_cases txId n polls with
    ⟨h1, h2⟩ | ⟨r, hmem, hr, hres, hno⟩ | ⟨r, hmem, hr, hres, hno⟩
  · have hout : getTxResult txId (fun i => Except.ok (polls i)) n =
        (Except.error (notConfirmedMsg txId n),
          (getTxResultGo txId (fun i => Except.ok (polls i)) n).2) := by
      rw [heq, h1]
    refine ⟨?_, ?_, fun _ => by rw [hout], fun r => failedMsg_ne_notConfirmedMsg txId r n⟩
    · constructor
      · rintro ⟨r, hrmem, hrF⟩
        rw [hout] at hrmem
        exact absurd hrF (h2 r hrmem).1
      · rintro ⟨r, _, hr1, _⟩
        rw [hout] at hr1
        exact absurd (Except.error.inj hr1).symm (failedMsg_ne_notConfirmedMsg txId r n)
    · constructor
      · rintro ⟨r, hrmem, hrM⟩
        rw [hout] at hrmem
        exact absurd hrM (h2 r hrmem).2
      · rintro ⟨r, hr1, _⟩
        rw [hout] at hr1
        exact absurd hr1 (by simp)
  · have hout : getTxResult txId (fun i => Except.ok (polls i)) n =
        (Except.error (failedMsg txId r),
          (getTxResultGo txId (fun i => Except.ok (polls i)) n).2) := by
      rw [heq, hres]
    refine ⟨?_, ?_, ?_, fun r' => failedMsg_ne_notConfirmedMsg txId r' n⟩
    · constructor
      · intro _
        exact ⟨r, hr, by rw [hout], (strContains_failedMsg txId r).1,
          (strContains_failedMsg txId r).2⟩
      · intro _
        exact ⟨r, by rw [hout]; exact hmem, hr⟩
    · constructor
      · rintro ⟨r', hrmem, hrM⟩
        rw [hout] at hrmem
        exact absurd hrM (hno r' hrmem)
      · rintro ⟨r', hr1, _⟩
        rw [hout] at hr1
        exact absurd hr1 (by simp)
    · intro hall
      have := (hall r (by rw [hout]; exact hmem)).1
      exact absurd hr this
  · have hout : getTxResult txId (fun i => Except.ok (polls i)) n =
        (Except.ok r,
          (getTxResultGo txId (fun i => Except.ok (polls i)) n).2) := by
      rw [heq, hres]
    refine ⟨?_, ?_, ?_, fun r' => failedMsg_ne_notConfirmedMsg txId r' n⟩
    · constructor
      · rintro ⟨r', hrmem, hrF⟩
        rw [hout] at hrmem
        exact absurd hrF (hno r' hrmem)
      · rintro ⟨r', _, hr1, _⟩
        rw [hout] at hr1
        exact absurd hr1 (by simp)
    · constructor
      · intro _
        exact ⟨r, by rw [hout], hr⟩
      · intro _
        exact ⟨r, by rw [hout]; exact hmem, hr⟩
    · intro hall
      have := (hall r (by rw [hout]; exact hmem)).2
      exact absurd hr this

/-- Witness for C8: with two polls both still pending, the call throws the
not-confirmed error. -/
theorem getTxResult_spec_witness :
    (getTxResult "t" (fun _ => Except.ok ⟨"PENDING", none⟩) 2).1 =
      Except.error (notConfirmedMsg "t" 2) := by
  refine (getTxResult_spec "t" (fun _ => ⟨"PENDING", none⟩) 2).2.2.1 ?_
  intro r hr
  simp [getTxResult, getTxResultGo, jsIncludes] at hr
  rw [hr]
  exact ⟨by decide, by decide⟩

/-- A list stays an infix after extending on the left. -/
lemma infix_append_left {α : Type} {l m : List α} (n : List α)
    (h : l <:+: m) : l <:+: n ++ m := by
  obtain ⟨s, t, rfl⟩ := h
  exact ⟨n ++ s, t, by simp [List.append_assoc]⟩

/-- A list is an infix of itself followed by anything. -/
lemma infix_self_append {α : Type} (l t : List α) : l <:+: l ++ t :=
  ⟨[], t, by simp⟩

/-- Every recovery fact the spec requires is embedded in the step-2
recovery message. -/
lemma recoveryMsg_contains (wallet : AElfWallet) (p : CrossChainTransferParams)
    (m tx : String) :
    strContains (recoveryMsg wallet p m tx) "RECOVERY NEEDED" ∧
    strContains (recoveryMsg wallet p m tx) wallet.address ∧
    strContains (recoveryMsg wallet p m tx) p.tokenContractAddress ∧
    strContains (recoveryMsg wallet p m tx) p.symbol ∧
    strContains (recoveryMsg wallet p m tx) p.amount ∧
    strContains (recoveryMsg wallet p m tx) p.chainId ∧
    strContains (recoveryMsg wallet p m tx) p.caHash ∧
    strContains (recoveryMsg wallet p m tx) tx := by
  refine ⟨?_, ?_, ?_, ?_, ?_, ?_, ?_, ?_⟩
  · simp only [strContains, recoveryMsg, String.data_append, List.append_assoc]
    iterate 4 apply infix_append_left
    exact infix_self_append _ _
  · simp only [strContains, recoveryMsg, String.data_append, List.append_assoc]
    iterate 10 apply infix_append_left
    exact infix_self_append _ _
  · simp only [strContains, recoveryMsg, String.data_append, List.append_assoc]
    iterate 14 apply infix_append_left
    exact infix_self_append _ _
  · simp only [strContains, recoveryMsg, String.data_append, List.append_assoc]
    iterate 8 apply infix_append_left
    exact infix_self_append _ _
  · simp only [strContains, recoveryMsg, String.data_append, List.append_assoc]
    iterate 6 apply infix_append_left
    exact infix_self_append _ _
  · simp only [strContains, recoveryMsg, String.data_append, List.append_assoc]
    iterate 20 apply infix_append_left
    exact infix_self_append _ _
  · simp only [strContains, recoveryMsg, String.data_append, List.append_assoc]
    iterate 22 apply infix_append_left
    exact infix_self_append _ _
  · simp only [strContains, recoveryMsg, String.data_append, List.append_assoc]
    iterate 24 apply infix_append_left
    exact infix_self_append _ _

/-- The step-1 failure message mentions "step 1" literally. -/
lemma step1FailedMsg_contains (r : SendResult) :
    strContains (step1FailedMsg r) "step 1" := by
  simp only [strContains, step1FailedMsg, String.data_append, List.append_assoc]
  apply infix_append_left
  exact infix_self_append _ _

/-- C2: when Step 1 completes with a terminal status other than `MINED`,
`crossChainTransfer` rejects with the step-1 failure message (which
mentions "step 1") and never issues a `CrossChainTransfer` send call. -/
theorem crossChainTransfer_step1_not_mined
    (wallet : AElfWallet) (params : CrossChainTransferParams)
    (chainInfo : ChainInfo) (encodedArgs : List Nat)
    (r : SendResult) (step2Send : Except String SendResult)
    (h1 : params.caHash ≠ "") (h2 : params.tokenContractAddress ≠ "")
    (h3 : params.symbol ≠ "") (h4 : params.«to» ≠ "") (h5 : params.amount ≠ "")
    (h6 : params.chainId ≠ "") (h7 : params.toChainId ≠ "")
    (hst : r.data.Status ≠ "MINED") :
    (crossChainTransfer wallet params (Except.ok chainInfo) (Except.ok encodedArgs)
        (Except.ok r) step2Send).1 = Except.error (step1FailedMsg r) ∧
    strContains (step1FailedMsg r) "step 1" ∧
    ∀ c ∈ (crossChainTransfer wallet params (Except.ok chainInfo)
        (Except.ok encodedArgs) (Except.ok r) step2Send).2,
      sendsMethod c "CrossChainTransfer" = false := by
  have hrun : crossChainTransfer wallet params (Except.ok chainInfo)
      (Except.ok encodedArgs) (Except.ok r) step2Send =
      (Except.error (step1FailedMsg r),
        [NetCall.getChainInfo params.chainId, NetCall.getChainInfo params.chainId,
          NetCall.descriptorFetch params.tokenContractAddress,
          NetCall.send chainInfo.endPoint chainInfo.caContractAddress wallet.address
            "ManagerForwardCall"
            (SendArgs.forward params.caHash params.tokenContractAddress "Transfer"
              encodedArgs)]) := by
    simp [crossChainTransfer, managerForwardCall, h1, h2, h3, h4, h5, h6, h7, hst]
  refine ⟨by rw [hrun], step1FailedMsg_contains r, ?_⟩
  rw [hrun]
  intro c hc
  simp only [List.mem_cons, List.mem_singleton] at hc
  rcases hc with rfl | rfl | rfl | rfl | hc
  · rfl
  · rfl
  · rfl
  · rfl
  · simp at hc

/-- C1: when Step 1 is `MINED` and the Step 2 `CrossChainTransfer` send
call throws, `crossChainTransfer` rejects with the recovery message, which
contains "RECOVERY NEEDED", the manager address, the token contract
address, the symbol, the amount, the source chain id, the caHash and
Step 1's transaction id. -/
theorem crossChainTransfer_recovery
    (wallet : AElfWallet) (params : CrossChainTransferParams)
    (chainInfo : ChainInfo) (encodedArgs : List Nat)
    (r1 : SendResult) (m : String) (toNum issueNum : Int)
    (h1 : params.caHash ≠ "") (h2 : params.tokenContractAddress ≠ "")
    (h3 : params.symbol ≠ "") (h4 : params.«to» ≠ "") (h5 : params.amount ≠ "")
    (h6 : params.chainId ≠ "") (h7 : params.toChainId ≠ "")
    (hmined : r1.data.Status = "MINED")
    (htoNum : chainIdToNum params.toChainId = some toNum)
    (hissue : resolveIssueChainId params = some issueNum) :
    (crossChainTransfer wallet params (Except.ok chainInfo) (Except.ok encodedArgs)
        (Except.ok r1) (Except.error m)).1 =
      Except.error (recoveryMsg wallet params m r1.transactionId) ∧
    strContains (recoveryMsg wallet params m r1.transactionId) "RECOVERY NEEDED" ∧
    strContains (recoveryMsg wallet params m r1.transactionId) wallet.address ∧
    strContains (recoveryMsg wallet params m r1.transactionId)
      params.tokenContractAddress ∧
    strContains (recoveryMsg wallet params m r1.transactionId) params.symbol ∧
    strContains (recoveryMsg wallet params m r1.transactionId) params.amount ∧
    strContains (recoveryMsg wallet params m r1.transactionId) params.chainId ∧
    strContains (recoveryMsg wallet params m r1.transactionId) params.caHash ∧
    strContains (recoveryMsg wallet params m r1.transactionId) r1.transactionId := by
  have hc := recoveryMsg_contains wallet params m r1.transactionId
  refine ⟨?_, hc.1, hc.2.1, hc.2.2.1, hc.2.2.2.1, hc.2.2.2.2.1, hc.2.2.2.2.2.1,
    hc.2.2.2.2.2.2.1, hc.2.2.2.2.2.2.2⟩
  simp [crossChainTransfer, managerForwardCall, h1, h2, h3, h4, h5, h6, h7,
    hmined, htoNum, hissue]

/-- C6: when both steps succeed, the returned result carries Step 2's
transaction id and status, not Step 1's. -/
theorem crossChainTransfer_success
    (wallet : AElfWallet) (params : CrossChainTransferParams)
    (chainInfo : ChainInfo) (encodedArgs : List Nat)
    (r1 r2 : SendResult) (toNum issueNum : Int)
    (h1 : params.caHash ≠ "") (h2 : params.tokenContractAddress ≠ "")
    (h3 : params.symbol ≠ "") (h4 : params.«to» ≠ "") (h5 : params.amount ≠ "")
    (h6 : params.chainId ≠ "") (h7 : params.toChainId ≠ "")
    (hmined : r1.data.Status = "MINED")
    (htoNum : chainIdToNum params.toChainId = some toNum)
    (hissue : resolveIssueChainId params = some issueNum) :
    (crossChainTransfer wallet params (Except.ok chainInfo) (Except.ok encodedArgs)
        (Except.ok r1) (Except.ok r2)).1 =
      Except.ok ⟨r2.transactionId, r2.data.Status⟩ ∧
    (r1.transactionId ≠ r2.transactionId →
      (crossChainTransfer wallet params (Except.ok chainInfo) (Except.ok encodedArgs)
          (Except.ok r1) (Except.ok r2)).1 ≠
        Except.ok ⟨r1.transactionId, r2.data.Status⟩) := by
  have hrun : (crossChainTransfer wallet params (Except.ok chainInfo)
      (Except.ok encodedArgs) (Except.ok r1) (Except.ok r2)).1 =
      Except.ok ⟨r2.transactionId, r2.data.Status⟩ := by
    simp [crossChainTransfer, managerForwardCall, h1, h2, h3, h4, h5, h6, h7,
      hmined, htoNum, hissue]
  refine ⟨hrun, fun hne hcontra => ?_⟩
  rw [hrun] at hcontra
  have : r2.transactionId = r1.transactionId := by
    simpa [TransferResult.mk.injEq] using hcontra
  exact hne this.symm

/-- C4 (amended): `managerForwardCall` validates `caHash`,
`contractAddress`, `methodName` and `chainId` individually before any
network call; each failure names exactly the missing field.  (`args` is
not validated.) -/
theorem managerForwardCall_validation
    (wallet : AElfWallet) (params : ManagerForwardCallParams)
    (chainInfoRes : Except String ChainInfo) (encodeRes : Except String (List Nat))
    (sendRes : Except String SendResult) :
    (params.caHash = "" →
      managerForwardCall wallet params chainInfoRes encodeRes sendRes =
        (Except.error "caHash is required", [])) ∧
    (params.caHash ≠ "" → params.contractAddress = "" →
      managerForwardCall wallet params chainInfoRes encodeRes sendRes =
        (Except.error "contractAddress is required", [])) ∧
    (params.caHash ≠ "" → params.contractAddress ≠ "" → params.methodName = "" →
      managerForwardCall wallet params chainInfoRes encodeRes sendRes =
        (Except.error "methodName is required", [])) ∧
    (params.caHash ≠ "" → params.contractAddress ≠ "" → params.methodName ≠ "" →
      params.chainId = "" →
      managerForwardCall wallet params chainInfoRes encodeRes sendRes =
        (Except.error "chainId is required", [])) := by
  refine ⟨fun e1 => ?_, fun n1 e2 => ?_, fun n1 n2 e3 => ?_, fun n1 n2 n3 e4 => ?_⟩
  · simp [managerForwardCall, e1]
  · simp [managerForwardCall, n1, e2]
  · simp [managerForwardCall, n1, n2, e3]
  · simp [managerForwardCall, n1, n2, n3, e4]

/-- Witness for the amended C4 at a concrete empty `caHash`. -/
theorem managerForwardCall_validation_witness :
    managerForwardCall ⟨"mgr", "pk"⟩ ⟨"", "token", "Transfer", [], "AELF"⟩
        (Except.ok ⟨"rpc", "caContract"⟩) (Except.ok [])
        (Except.ok ⟨"tx1", "MINED", none⟩) =
      (Except.error "caHash is required", []) :=
  (managerForwardCall_validation ⟨"mgr", "pk"⟩ ⟨"", "token", "Transfer", [], "AELF"⟩
    (Except.ok ⟨"rpc", "caContract"⟩) (Except.ok [])
    (Except.ok ⟨"tx1", "MINED", none⟩)).1 rfl

/-- Counterexample to C4 as stated: with empty `args` (and every other
field non-empty) the dispatcher does not fail — it proceeds to the network
calls and returns the send result. -/
theorem managerForwardCall_emptyArgs_counterexample :
    (managerForwardCall ⟨"mgr", "pk"⟩ ⟨"ca", "token", "Transfer", [], "AELF"⟩
        (Except.ok ⟨"rpc", "caContract"⟩) (Except.ok [0])
        (Except.ok ⟨"tx1", "MINED", none⟩)).1 =
      Except.ok ⟨"tx1", "MINED", none⟩ ∧
    (managerForwardCall ⟨"mgr", "pk"⟩ ⟨"ca", "token", "Transfer", [], "AELF"⟩
        (Except.ok ⟨"rpc", "caContract"⟩) (Except.ok [0])
        (Except.ok ⟨"tx1", "MINED", none⟩)).2 ≠ [] := by
  constructor
  · rfl
  · simp [managerForwardCall]

set_option maxRecDepth 100000 in
/-- Witness for C1 at concrete inputs. -/
theorem crossChainTransfer_recovery_witness :
    (crossChainTransfer ⟨"mgr", "pk"⟩
        ⟨"ca", "token", "ELF", "addr2", "100", none, "AELF", "tDVV", none⟩
        (Except.ok ⟨"rpc", "caAddr"⟩) (Except.ok [0])
        (Except.ok ⟨"tx1", "MINED", none⟩) (Except.error "boom")).1 =
      Except.error (recoveryMsg ⟨"mgr", "pk"⟩
        ⟨"ca", "token", "ELF", "addr2", "100", none, "AELF", "tDVV", none⟩
        "boom" "tx1") :=
  (crossChainTransfer_recovery ⟨"mgr", "pk"⟩
    ⟨"ca", "token", "ELF", "addr2", "100", none, "AELF", "tDVV", none⟩
    ⟨"rpc", "caAddr"⟩ [0] ⟨"tx1", "MINED", none⟩ "boom" 1866392 9992731
    (by decide) (by decide) (by decide) (by decide) (by decide) (by decide)
    (by decide) rfl (by decide) (by decide)).1

/-- Witness for C2 at concrete inputs. -/
theorem crossChainTransfer_step1_not_mined_witness :
    (crossChainTransfer ⟨"mgr", "pk"⟩
        ⟨"ca", "token", "ELF", "addr2", "100", none, "AELF", "tDVV", none⟩
        (Except.ok ⟨"rpc", "caAddr"⟩) (Except.ok [0])
        (Except.ok ⟨"tx1", "FAILED", some "err"⟩) (Except.ok ⟨"tx2", "MINED", none⟩)).1 =
      Except.error (step1FailedMsg ⟨"tx1", "FAILED", some "err"⟩) :=
  (crossChainTransfer_step1_not_mined ⟨"mgr", "pk"⟩
    ⟨"ca", "token", "ELF", "addr2", "100", none, "AELF", "tDVV", none⟩
    ⟨"rpc", "caAddr"⟩ [0] ⟨"tx1", "FAILED", some "err"⟩
    (Except.ok ⟨"tx2", "MINED", none⟩)
    (by decide) (by decide) (by decide) (by decide) (by decide) (by decide)
    (by decide) (by decide)).1

/-! ## Protobuf method lookup (`encodeManagerForwardCallParams`,
`lib/aelf-client.ts`)

The fetched schema tree: `root.nestedArray` is a list of nodes; a node
may carry a `methods` dictionary (a service) mapping a method name to its
`resolvedRequestType` (absent when unresolved), and may carry its own
`nestedArray` whose entries' `methods` dictionaries are also consulted. -/

/-- A nested entry of a schema node: only its optional `methods`
dictionary is read. -/
structure PNested where
  methods : Option (List (String × Option String))
deriving DecidableEq

/-- A top-level entry of `root.nestedArray`. -/
structure PService where
  methods : Option (List (String × Option String))
  nestedArray : Option (List PNested)
deriving DecidableEq

/-- Remove the first occurrence of a character (JS `replace(c, '')`). -/
def removeFirst (c : Char) : List Char → List Char
  | [] => []
  | x :: xs => if x = c then xs else x :: removeFirst c xs

/-- `methodName.replace('.', '')`: strip the first literal dot. -/
def removeFirstDot (s : String) : String :=
  ⟨removeFirst '.' s.data⟩

/-- `svc.methods?.[clean]?.resolvedRequestType`: a direct service-level
match with a resolved request type. -/
def directMatch (svc : PService) (clean : String) : Option String :=
  match svc.methods with
  | some dict =>
    match dict.lookup clean with
    | some (some t) => some t
    | _ => none
  | none => none

/-- The inner loop over `svc.nestedArray`: first nested entry whose
`methods` dictionary resolves the name (the inner `break`). -/
def firstNestedMatch (clean : String) : List PNested → Option String
  | [] => none
  | n :: rest =>
    match n.methods with
    | some dict =>
      match dict.lookup clean with
      | some (some t) => some t
      | _ => firstNestedMatch clean rest
    | none => firstNestedMatch clean rest

/-- The nested-namespace match contributed by one top-level node. -/
def nestedMatchOf (svc : PService) (clean : String) : Option String :=
  match svc.nestedArray with
  | some ns => firstNestedMatch clean ns
  | none => none

/-- The source's search loop: a direct service match breaks the outer
loop immediately; a nested match only overwrites the accumulator (the
inner `break` does not leave the outer loop) and the scan continues. -/
def findInputTypeLoop (clean : String) : List PService → Option String → Option String
  | [], acc => acc
  | svc :: rest, acc =>
    match directMatch svc clean with
    | some t => some t
    | none =>
      match nestedMatchOf svc clean with
      | some t => findInputTypeLoop clean rest (some t)
      | none => findInputTypeLoop clean rest acc

/-- The input-type lookup of `encodeManagerForwardCallParams`. -/
def encodeFindInputType (root : List PService) (methodName : String) : Option String :=
  findInputTypeLoop (removeFirstDot methodName) root none

/-- `Method "${methodName}" not found in contract ${contractAddress}`. -/
def methodNotFoundMsg (methodName contractAddress : String) : String :=
  "Method \"" ++ methodName ++ "\" not found in contract " ++ contractAddress

/-- The lookup step of `encodeManagerForwardCallParams`: the resolved
input type, or the method-not-found error when the search found none. -/
def encodeMethodLookup (root : List PService) (methodName contractAddress : String) :
    Except String String :=
  match encodeFindInputType root methodName with
  | some t => Except.ok t
  | none => Except.error (methodNotFoundMsg methodName contractAddress)

/-- The spec's stated policy, written from the spec's words for
comparison: scan services in order, each service's direct methods before
its nested namespaces, and the first match anywhere wins. -/
def specFirstMatch (clean : String) : List PService → Option String
  | [] => none
  | svc :: rest =>
    match directMatch svc clean with
    | some t => some t
    | none =>
      match nestedMatchOf svc clean with
      | some t => some t
      | none => specFirstMatch clean rest

/-- The first direct service-level match, in scan order. -/
def firstDirect (clean : String) : List PService → Option String
  | [] => none
  | svc :: rest =>
    match directMatch svc clean with
    | some t => some t
    | none => firstDirect clean rest

/-- The last nested-namespace match, in scan order (later entries
overwrite earlier ones). -/
def lastNested (clean : String) : List PService → Option String
  | [] => none
  | svc :: rest =>
    match lastNested clean rest with
    | some t => some t
    | none => nestedMatchOf svc clean

/-- The search loop returns the first direct match if any exists, else
the last nested match, else the accumulator. -/
lemma findInputTypeLoop_eq (clean : String) :
    ∀ (l : List PService) (acc : Option String),
      findInputTypeLoop clean l acc =
        match firstDirect clean l with
        | some t => some t
        | none =>
          match lastNested clean l with
          | some t => some t
          | none => acc := by
  intro l
  induction l with
  | nil => intro acc; simp [findInputTypeLoop, firstDirect, lastNested]
  | cons svc rest ih =>
    intro acc
    cases hd : directMatch svc clean with
    | some t =>
      simp [findInputTypeLoop, firstDirect, hd]
    | none =>
      cases hn : nestedMatchOf svc clean with
      | some t =>
        rw [show findInputTypeLoop clean (svc :: rest) acc =
          findInputTypeLoop clean rest (some t) by simp [findInputTypeLoop, hd, hn]]
        rw [ih (some t)]
        simp only [firstDirect, lastNested, hd, hn]
        cases firstDirect clean rest <;> cases lastNested clean rest <;> rfl
      | none =>
        rw [show findInputTypeLoop clean (svc :: rest) acc =
          findInputTypeLoop clean rest acc by simp [findInputTypeLoop, hd, hn]]
        rw [ih acc]
        simp only [firstDirect, lastNested, hd, hn]
        cases firstDirect clean rest <;> cases lastNested clean rest <;> rfl

/-- No direct match anywhere iff every node's direct match is empty. -/
lemma firstDirect_eq_none (clean : String) (l : List PService) :
    firstDirect clean l = none ↔ ∀ svc ∈ l, directMatch svc clean = none := by
  induction l with
  | nil => simp [firstDirect]
  | cons svc rest ih =>
    cases hd : directMatch svc clean with
    | some t => simp [firstDirect, hd]
    | none => simp [firstDirect, hd, ih]

/-- No nested match anywhere iff every node's nested match is empty. -/
lemma lastNested_eq_none (clean : String) (l : List PService) :
    lastNested clean l = none ↔ ∀ svc ∈ l, nestedMatchOf svc clean = none := by
  induction l with
  | nil => simp [lastNested]
  | cons svc rest ih =>
    cases hr : lastNested clean rest with
    | some t =>
      simp only [lastNested, hr]
      constructor
      · intro h; exact absurd h (by simp)
      · intro h
        exact absurd (ih.mpr (fun s hs => h s (List.mem_cons_of_mem _ hs))) (by simp [hr])
    | none =>
      simp only [lastNested, hr]
      constructor
      · intro h s hs
        rcases List.mem_cons.mp hs with rfl | hs'
        · exact h
        · exact ih.mp hr s hs'
      · intro h
        exact h svc (by simp)

/-- C5 (amended): the lookup strips the first literal dot, then returns
the first direct service-level match if one exists (that match stops the
scan); otherwise a nested-namespace match is recorded but the scan
continues, so the last nested match wins; the method-not-found error is
raised exactly when no service and no nested namespace resolves the
method. -/
theorem encodeMethodLookup_spec (root : List PService)
    (methodName contractAddress : String) :
    (encodeFindInputType root methodName =
      match firstDirect (removeFirstDot methodName) root with
      | some t => some t
      | none => lastNested (removeFirstDot methodName) root) ∧
    (encodeFindInputType root methodName = none ↔
      ∀ svc ∈ root, directMatch svc (removeFirstDot methodName) = none ∧
        nestedMatchOf svc (removeFirstDot methodName) = none) ∧
    (encodeFindInputType root methodName = none →
      encodeMethodLookup root methodName contractAddress =
        Except.error (methodNotFoundMsg methodName contractAddress)) ∧
    (∀ t, encodeFindInputType root methodName = some t →
      encodeMethodLookup root methodName contractAddress = Except.ok t) := by
  have hchar : encodeFindInputType root methodName =
      match firstDirect (removeFirstDot methodName) root with
      | some t => some t
      | none =>
        match lastNested (removeFirstDot methodName) root with
        | some t => some t
        | none => none := findInputTypeLoop_eq (removeFirstDot methodName) root none
  refine ⟨?_, ?_, ?_, ?_⟩
  · rw [hchar]
    cases firstDirect (removeFirstDot methodName) root <;>
      cases hl : lastNested (removeFirstDot methodName) root <;> simp [hl]
  · rw [hchar]
    constructor
    · intro h svc hs
      cases hf : firstDirect (removeFirstDot methodName) root with
      | some t => rw [hf] at h; simp at h
      | none =>
        cases hl : lastNested (removeFirstDot methodName) root with
        | some t => rw [hf, hl] at h; simp at h
        | none =>
          exact ⟨(firstDirect_eq_none _ root).mp hf svc hs,
            (lastNested_eq_none _ root).mp hl svc hs⟩
    · intro h
      rw [(firstDirect_eq_none _ root).mpr (fun s hs => (h s hs).1),
        (lastNested_eq_none _ root).mpr (fun s hs => (h s hs).2)]
  · intro h
    simp [encodeMethodLookup, h]
  · intro t h
    simp [encodeMethodLookup, h]

/-- Witness for the amended C5: a schema whose only match is nested
resolves to that type; an empty schema raises the not-found error. -/
theorem encodeMethodLookup_spec_witness :
    encodeMethodLookup [PService.mk none (some [PNested.mk (some [("M", some "T1")])])]
        "M" "addr" = Except.ok "T1" ∧
    encodeMethodLookup [] "M" "addr" =
      Except.error (methodNotFoundMsg "M" "addr") := by
  constructor
  · exact (encodeMethodLookup_spec
      [PService.mk none (some [PNested.mk (some [("M", some "T1")])])] "M" "addr").2.2.2
      "T1" (by decide)
  · exact (encodeMethodLookup_spec [] "M" "addr").2.2.1 (by decide)

/-- Counterexample to C5 as stated: when the method occurs first in an
early node's nested namespace and again directly in a later service, the
source returns the later service's type, not the first encountered one. -/
theorem encodeFindInputType_counterexample :
    encodeFindInputType
        [PService.mk none (some [PNested.mk (some [("M", some "T1")])]),
          PService.mk (some [("M", some "T2")]) none] "M" = some "T2" ∧
    specFirstMatch (removeFirstDot "M")
        [PService.mk none (some [PNested.mk (some [("M", some "T1")])]),
          PService.mk (some [("M", some "T2")]) none] = some "T1" ∧
    ("T1" : String) ≠ "T2" := by
  refine ⟨by decide, by decide, by decide⟩

set_option maxRecDepth 100000 in
/-- Witness for C6 at concrete inputs. -/
theorem crossChainTransfer_success_witness :
    (crossChainTransfer ⟨"mgr", "pk"⟩
        ⟨"ca", "token", "ELF", "addr2", "100", none, "AELF", "tDVV", none⟩
        (Except.ok ⟨"rpc", "caAddr"⟩) (Except.ok [0])
        (Except.ok ⟨"tx1", "MINED", none⟩) (Except.ok ⟨"tx2", "MINED", none⟩)).1 =
      Except.ok ⟨"tx2", "MINED"⟩ :=
  (crossChainTransfer_success ⟨"mgr", "pk"⟩
    ⟨"ca", "token", "ELF", "addr2", "100", none, "AELF", "tDVV", none⟩
    ⟨"rpc", "caAddr"⟩ [0] ⟨"tx1", "MINED", none⟩ ⟨"tx2", "MINED", none⟩
    1866392 9992731
    (by decide) (by decide) (by decide) (by decide) (by decide) (by decide)
    (by decide) rfl (by decide) (by decide)).1

end PortkeyCA

namespace PortkeyCA

/-! ## Keystore lifecycle (`src/core/keystore.ts`)

The filesystem is a map from file path to file data (`corrupt` stands for
a file `JSON.parse` rejects); the process-wide Unlocked-Wallet Slot is the
`unlockedState` module variable.  The external aelf-sdk scrypt/AES
keystore is modelled symbolically: encryption packages the secrets with
the password, decryption succeeds exactly under the original password. -/

/-- Symbolic model of the aelf-sdk encrypted keystore blob. -/
structure EncKeystore where
  privateKey : String
  mnemonic : String
  address : String
  password : String
deriving DecidableEq

/-- aelf-sdk `getKeystore` (symbolic encryption). -/
def getKeystore (privateKey mnemonic address password : String) : EncKeystore :=
  ⟨privateKey, mnemonic, address, password⟩

/-- aelf-sdk `unlockKeystore` (symbolic decryption): the original password
recovers the private key, anything else fails. -/
def unlockKeystore (b : EncKeystore) (password : String) : Option String :=
  if b.password = password then some b.privateKey else none

/-- `CaKeystoreFile`: the persisted file shape. -/
structure CaKeystoreFile where
  caHash : String
  caAddress : String
  originChainId : String
  keystore : EncKeystore
deriving DecidableEq

/-- Contents of a path on disk: a parseable keystore file or one that
`JSON.parse` rejects. -/
inductive FileData
  | valid (f : CaKeystoreFile)
  | corrupt
deriving DecidableEq

/-- `UnlockedWalletState`: the occupant of the Unlocked-Wallet Slot. -/
structure UnlockedWalletState where
  wallet : AElfWallet
  caHash : String
  caAddress : String
  originChainId : String
  network : String
deriving DecidableEq

/-- Module state of `keystore.ts`: the files it can reach plus the
process-wide slot. -/
structure KeystoreState where
  files : String → Option FileData
  unlockedState : Option UnlockedWalletState

/-- `KEYSTORE_DIR` (the `os.homedir()` prefix is fixed per process). -/
def KEYSTORE_DIR : String := ".portkey/ca"

/-- `ALLOWED_NETWORKS`. -/
def ALLOWED_NETWORKS : List String := ["mainnet", "testnet"]

/-- `getKeystorePath`: validate the network and build the per-network
file path. -/
def getKeystorePath (network : String) : Except String String :=
  if network ∈ ALLOWED_NETWORKS then
    Except.ok (KEYSTORE_DIR ++ "/" ++ network ++ ".keystore.json")
  else
    Except.error ("Invalid network \"" ++ network ++
      "\". Allowed values: mainnet, testnet")

/-- `WalletStatus` (the `exists` field keeps its source name). -/
structure WalletStatus where
  «exists» : Bool
  unlocked : Bool
  caAddress : Option String
  caHash : Option String
  managerAddress : Option String
  network : String
deriving DecidableEq

/-- `SaveKeystoreParams`. -/
structure SaveKeystoreParams where
  password : String
  privateKey : String
  mnemonic : String
  caHash : String
  caAddress : String
  originChainId : String
  network : String
deriving DecidableEq

/-- The summary `saveKeystore` returns. -/
structure SaveResult where
  message : String
  keystorePath : String
  caAddress : String
  managerAddress : String
deriving DecidableEq

/-- `saveKeystore`: validate each field individually, encrypt, write the
file (with the `originChainId || 'AELF'` fallback), then auto-unlock the
slot.  `derive` is the external `getWalletByPrivateKey` address
derivation. -/
def saveKeystore (derive : String → String) (p : SaveKeystoreParams)
    (s : KeystoreState) : Except String (KeystoreState × SaveResult) :=
  if p.password = "" then Except.error "password is required"
  else if p.privateKey = "" then Except.error "privateKey is required"
  else if p.mnemonic = "" then Except.error "mnemonic is required"
  else if p.caHash = "" then Except.error "caHash is required"
  else if p.caAddress = "" then Except.error "caAddress is required"
  else if p.network = "" then Except.error "network is required"
  else
    let walletAddress := derive p.privateKey
    let keystoreObj := getKeystore p.privateKey p.mnemonic walletAddress p.password
    let originChain := if p.originChainId = "" then "AELF" else p.originChainId
    let fileContent : CaKeystoreFile := ⟨p.caHash, p.caAddress, originChain, keystoreObj⟩
    match getKeystorePath p.network with
    | Except.error e => Except.error e
    | Except.ok filePath =>
      Except.ok
        (⟨fun k => if k = filePath then some (FileData.valid fileContent) else s.files k,
          some ⟨⟨walletAddress, p.privateKey⟩, p.caHash, p.caAddress, originChain,
            p.network⟩⟩,
          ⟨"Keystore saved and wallet unlocked. Path: " ++ filePath, filePath,
            p.caAddress, walletAddress⟩)

/-- The summary `unlockWallet` returns. -/
structure UnlockResult where
  message : String
  caAddress : String
  caHash : String
  managerAddress : String
  originChainId : String
deriving DecidableEq

/-- `unlockWallet`: read and decrypt the network's keystore file, then
populate the slot (replacing any previous occupant). -/
def unlockWallet (derive : String → String) (password network : String)
    (s : KeystoreState) : Except String (KeystoreState × UnlockResult) :=
  if password = "" then Except.error "password is required"
  else
    match getKeystorePath network with
    | Except.error e => Except.error e
    | Except.ok filePath =>
      match s.files filePath with
      | none =>
        Except.error ("No keystore found for network \"" ++ network ++
          "\". Expected at: " ++ filePath ++ ". Use portkey_save_keystore first.")
      | some FileData.corrupt =>
        -- `JSON.parse` throws on an unparseable file
        Except.error "Unexpected token in JSON"
      | some (FileData.valid f) =>
        match unlockKeystore f.keystore password with
        | none => Except.error "Failed to decrypt keystore. Wrong password?"
        | some pk =>
          if pk = "" then Except.error "Failed to decrypt keystore. Wrong password?"
          else
            Except.ok
              (⟨s.files, some ⟨⟨derive pk, pk⟩, f.caHash, f.caAddress,
                f.originChainId, network⟩⟩,
                ⟨"Wallet unlocked successfully.", f.caAddress, f.caHash, derive pk,
                  f.originChainId⟩)

/-- `lockWallet`: unconditionally clear the slot. -/
def lockWallet (s : KeystoreState) : KeystoreState × String :=
  (⟨s.files, none⟩, "Wallet locked. Private key cleared from memory.")

/-- `getWalletStatus`: file existence, slot occupancy for this network,
and the file's CA metadata (null when the file is missing or corrupt). -/
def getWalletStatus (network : String) (s : KeystoreState) :
    Except String WalletStatus :=
  match getKeystorePath network with
  | Except.error e => Except.error e
  | Except.ok filePath =>
    let fileEx := (s.files filePath).isSome
    let unlocked : Bool :=
      match s.unlockedState with
      | some u => u.network == network
      | none => false
    let meta : Option String × Option String :=
      match s.files filePath with
      | some (FileData.valid f) => (some f.caAddress, some f.caHash)
      | some FileData.corrupt => (none, none)
      | none => (none, none)
    Except.ok ⟨fileEx, unlocked, meta.1, meta.2,
      (match s.unlockedState with
       | some u => if u.network == network then some u.wallet.address else none
       | none => none), network⟩

end PortkeyCA

namespace PortkeyCA

/-- C7: a successful save reports `exists=true, unlocked=true` with the
saved metadata and manager address (save auto-unlocks); after a lock the
status reports `unlocked=false` while the file still exists and its
metadata stays readable; and locking an already-locked state changes
nothing. -/
theorem keystore_lifecycle (derive : String → String) (p : SaveKeystoreParams)
    (s : KeystoreState)
    (h1 : p.password ≠ "") (h2 : p.privateKey ≠ "") (h3 : p.mnemonic ≠ "")
    (h4 : p.caHash ≠ "") (h5 : p.caAddress ≠ "")
    (h6 : p.network ∈ ALLOWED_NETWORKS) :
    ∃ (s1 : KeystoreState) (out : SaveResult),
      saveKeystore derive p s = Except.ok (s1, out) ∧
      getWalletStatus p.network s1 = Except.ok
        ⟨true, true, some p.caAddress, some p.caHash, some (derive p.privateKey),
          p.network⟩ ∧
      getWalletStatus p.network (lockWallet s1).1 = Except.ok
        ⟨true, false, some p.caAddress, some p.caHash, none, p.network⟩ ∧
      (lockWallet (lockWallet s1).1).1 = (lockWallet s1).1 := by
  have hne : p.network ≠ "" := by
    intro h
    rw [h] at h6
    simp [ALLOWED_NETWORKS] at h6
  have hpath : getKeystorePath p.network =
      Except.ok (KEYSTORE_DIR ++ "/" ++ p.network ++ ".keystore.json") := by
    simp [getKeystorePath, h6]
  refine ⟨⟨fun k => if k = KEYSTORE_DIR ++ "/" ++ p.network ++ ".keystore.json"
        then some (FileData.valid ⟨p.caHash, p.caAddress,
          (if p.originChainId = "" then "AELF" else p.originChainId),
          getKeystore p.privateKey p.mnemonic (derive p.privateKey) p.password⟩)
        else s.files k,
      some ⟨⟨derive p.privateKey, p.privateKey⟩, p.caHash, p.caAddress,
        (if p.originChainId = "" then "AELF" else p.originChainId), p.network⟩⟩,
    ⟨"Keystore saved and wallet unlocked. Path: " ++
        (KEYSTORE_DIR ++ "/" ++ p.network ++ ".keystore.json"),
      KEYSTORE_DIR ++ "/" ++ p.network ++ ".keystore.json", p.caAddress,
      derive p.privateKey⟩, ?_, ?_, ?_, rfl⟩
  · simp [saveKeystore, h1, h2, h3, h4, h5, hne, hpath]
  · simp [getWalletStatus, hpath]
  · simp [getWalletStatus, lockWallet, hpath]

/-- A keystore file used by concrete witnesses. -/
def sampleKeystoreFile : CaKeystoreFile :=
  ⟨"ca", "caAddr", "AELF", ⟨"pk", "mn", "addr", "pw"⟩⟩

/-- A state with that file saved for mainnet and the slot empty. -/
def sampleKeystoreState : KeystoreState :=
  ⟨fun k => if k = ".portkey/ca/mainnet.keystore.json"
    then some (FileData.valid sampleKeystoreFile) else none, none⟩

/-- Witness for C7 at concrete inputs. -/
theorem keystore_lifecycle_witness :
    ∃ (s1 : KeystoreState) (out : SaveResult),
      saveKeystore (fun k => k) ⟨"pw", "pk", "mn", "ca", "caAddr", "AELF", "mainnet"⟩
        ⟨fun _ => none, none⟩ = Except.ok (s1, out) ∧
      getWalletStatus "mainnet" s1 =
        Except.ok ⟨true, true, some "caAddr", some "ca", some "pk", "mainnet"⟩ ∧
      getWalletStatus "mainnet" (lockWallet s1).1 =
        Except.ok ⟨true, false, some "caAddr", some "ca", none, "mainnet"⟩ ∧
      (lockWallet (lockWallet s1).1).1 = (lockWallet s1).1 :=
  keystore_lifecycle (fun k => k) ⟨"pw", "pk", "mn", "ca", "caAddr", "AELF", "mainnet"⟩
    ⟨fun _ => none, none⟩ (by decide) (by decide) (by decide) (by decide) (by decide)
    (by decide)

/-- C10: the status of a network reports `unlocked=true` only when the
process-wide slot holds a wallet for that same network; after unlocking a
wallet for one network, the status of the other network reports
`unlocked=false` and `managerAddress=null` even though the slot is
occupied. -/
theorem getWalletStatus_network_scoped
    (derive : String → String) (password n1 n2 filePath pk : String)
    (f : CaKeystoreFile) (s : KeystoreState)
    (hpw : password ≠ "") (hpath : getKeystorePath n1 = Except.ok filePath)
    (hfile : s.files filePath = some (FileData.valid f))
    (hdec : unlockKeystore f.keystore password = some pk) (hpk : pk ≠ "")
    (hn2 : n2 ∈ ALLOWED_NETWORKS) (hne : n1 ≠ n2) :
    unlockWallet derive password n1 s = Except.ok
      (⟨s.files, some ⟨⟨derive pk, pk⟩, f.caHash, f.caAddress, f.originChainId, n1⟩⟩,
        ⟨"Wallet unlocked successfully.", f.caAddress, f.caHash, derive pk,
          f.originChainId⟩) ∧
    (⟨s.files, some ⟨⟨derive pk, pk⟩, f.caHash, f.caAddress, f.originChainId, n1⟩⟩
        : KeystoreState).unlockedState ≠ none ∧
    (∃ st : WalletStatus,
      getWalletStatus n2 ⟨s.files, some ⟨⟨derive pk, pk⟩, f.caHash, f.caAddress,
        f.originChainId, n1⟩⟩ = Except.ok st ∧
      st.unlocked = false ∧ st.managerAddress = none) ∧
    (∀ (n : String) (s' : KeystoreState) (st : WalletStatus),
      getWalletStatus n s' = Except.ok st → st.unlocked = true →
      ∃ u, s'.unlockedState = some u ∧ u.network = n) := by
  have hb : (n1 == n2) = false := by
    simp [hne]
  refine ⟨?_, by simp, ?_, ?_⟩
  · simp [unlockWallet, hpw, hpath, hfile, hdec, hpk]
  · refine ⟨⟨(s.files (KEYSTORE_DIR ++ "/" ++ n2 ++ ".keystore.json")).isSome, false,
      (match s.files (KEYSTORE_DIR ++ "/" ++ n2 ++ ".keystore.json") with
        | some (FileData.valid f') => (some f'.caAddress, some f'.caHash)
        | some FileData.corrupt => (none, none)
        | none => (none, none)).1,
      (match s.files (KEYSTORE_DIR ++ "/" ++ n2 ++ ".keystore.json") with
        | some (FileData.valid f') => (some f'.caAddress, some f'.caHash)
        | some FileData.corrupt => (none, none)
        | none => (none, none)).2, none, n2⟩, ?_, rfl, rfl⟩
    simp [getWalletStatus, getKeystorePath, hn2, hb]
  · intro n s' st heq hun
    cases hp : getKeystorePath n with
    | error e =>
      rw [getWalletStatus, hp] at heq
      exact absurd heq (by simp)
    | ok path' =>
      rw [getWalletStatus, hp] at heq
      have hst := (Except.ok.inj heq).symm
      cases hu : s'.unlockedState with
      | none =>
        rw [hst] at hun
        simp [hu] at hun
      | some u =>
        rw [hst] at hun
        simp only [hu] at hun
        exact ⟨u, rfl, by simpa using hun⟩

/-- Witness for C10 at concrete inputs. -/
theorem getWalletStatus_network_scoped_witness :
    unlockWallet (fun k => k) "pw" "mainnet" sampleKeystoreState = Except.ok
      (⟨sampleKeystoreState.files,
          some ⟨⟨"pk", "pk"⟩, "ca", "caAddr", "AELF", "mainnet"⟩⟩,
        ⟨"Wallet unlocked successfully.", "caAddr", "ca", "pk", "AELF"⟩) ∧
    (⟨sampleKeystoreState.files,
        some ⟨⟨"pk", "pk"⟩, "ca", "caAddr", "AELF", "mainnet"⟩⟩
        : KeystoreState).unlockedState ≠ none ∧
    (∃ st : WalletStatus,
      getWalletStatus "testnet" ⟨sampleKeystoreState.files,
        some ⟨⟨"pk", "pk"⟩, "ca", "caAddr", "AELF", "mainnet"⟩⟩ = Except.ok st ∧
      st.unlocked = false ∧ st.managerAddress = none) ∧
    (∀ (n : String) (s' : KeystoreState) (st : WalletStatus),
      getWalletStatus n s' = Except.ok st → st.unlocked = true →
      ∃ u, s'.unlockedState = some u ∧ u.network = n) :=
  getWalletStatus_network_scoped (fun k => k) "pw" "mainnet" "testnet"
    ".portkey/ca/mainnet.keystore.json" "pk" sampleKeystoreFile sampleKeystoreState
    (by decide) rfl rfl rfl (by decide) (by decide) (by decide)

end PortkeyCA
